import Mathlib

/-!
Verification of `app/services/task_queue.py` (adtech_series/app_lakebase).

Modelling conventions:

* Python `str` is Lean `String` (a sequence of code points); slicing
  `accumulated[cursor:]` with a non-negative cursor is `String.drop`.
* Python dicts keyed by strings (`_generations`, `_saves`,
  `_history_results`) are finite-map-style functions `String → Option α`;
  `d[k] = v` is `Dict.set`, `d.pop(k, None)` is `Dict.remove` (state) with
  the returned value read off before removal.
* The thread pool is modelled by splitting each `submit_*` function into
  its synchronous part (run under `_registry_lock` before
  `_executor.submit`) and the body of its nested `_run` closure, which the
  pool thread executes later.  Wall-clock effects (`time.sleep`,
  stage-start timestamps) only affect pacing and are not modelled.
* A fallible Python callable is an `Except String α` value: `Except.ok a`
  models a normal return of `a`, and `Except.error msg` models a raised
  exception whose `str()` is `msg`.  A Python generator that yields some
  chunks and then either finishes or raises is a `List String` of the
  yielded chunks together with an `Option String` for the exception.
-/

namespace TaskQueue

/-- The three typing stages of the generation UI indicator. -/
inductive TypingStage where
  | thinking
  | generating
  | finishing
  deriving DecidableEq, Repr

/-- Thread-safe append-only buffer for streaming text (class
`StreamingBuffer`).  The `_stage_start_time` field is a wall-clock
timestamp used only for UI pacing and is not modelled. -/
structure StreamingBuffer where
  chunks : List String
  done : Bool
  error : Option String
  typing_stage : TypingStage
  deriving DecidableEq, Repr

/-- The state `__init__` establishes: no chunks, not done, no error,
stage `thinking`. -/
def StreamingBuffer.new : StreamingBuffer :=
  ⟨[], false, none, TypingStage.thinking⟩

/-- Method `append`: a falsy (empty) chunk is a no-op, otherwise the chunk
is appended.  (The defensive `str()` coercion is the identity on the
strings modelled here.) -/
def StreamingBuffer.append (b : StreamingBuffer) (text_chunk : String) :
    StreamingBuffer :=
  if text_chunk = "" then b
  else { b with chunks := b.chunks ++ [text_chunk] }

/-- Method `mark_done`: sets the done flag. -/
def StreamingBuffer.mark_done (b : StreamingBuffer) : StreamingBuffer :=
  { b with done := true }

/-- Method `mark_error`: records the error message and sets the done
flag. -/
def StreamingBuffer.mark_error (b : StreamingBuffer) (error_message : String) :
    StreamingBuffer :=
  { b with error := some error_message, done := true }

/-- Method `read_all`: `"".join(self._chunks)`. -/
def StreamingBuffer.read_all (b : StreamingBuffer) : String :=
  String.join b.chunks

/-- Method `read_since`: the accumulated text beyond a character cursor,
`accumulated[cursor:]`. -/
def StreamingBuffer.read_since (b : StreamingBuffer) (cursor : Nat) : String :=
  (String.join b.chunks).drop cursor

/-- Method `length`: the character length of the accumulated text. -/
def StreamingBuffer.text_length (b : StreamingBuffer) : Nat :=
  (String.join b.chunks).length

/-- Property `is_done`. -/
def StreamingBuffer.is_done (b : StreamingBuffer) : Bool :=
  b.done

/-- Method `set_typing_stage` (the timestamp reset is not modelled). -/
def StreamingBuffer.set_typing_stage (b : StreamingBuffer) (stage : TypingStage) :
    StreamingBuffer :=
  { b with typing_stage := stage }

/-- Dataclass `SaveStatus`. -/
structure SaveStatus where
  message_id : String
  ok : Bool := false
  error : Option String := none
  deriving DecidableEq, Repr

/-- A row of a history result: Python `Dict[str, Any]`, modelled as
field/value pairs with integer values. -/
abbrev HistItem := List (String × Int)

/-- A Python dict with string keys, as a finite-map-style function. -/
abbrev Dict (α : Type) : Type := String → Option α

/-- The empty dict. -/
def Dict.empty {α : Type} : Dict α := fun _ => none

/-- Python `d[k] = v`. -/
def Dict.set {α : Type} (d : Dict α) (k : String) (v : α) : Dict α :=
  fun q => if q = k then some v else d q

/-- State after Python `d.pop(k, None)`. -/
def Dict.remove {α : Type} (d : Dict α) (k : String) : Dict α :=
  fun q => if q = k then none else d q

/-- Characters of a Python string split on the explicit separator `" "`:
`s.split(" ")` splits at every single space and keeps empty fields, so the
result is never the empty list (`"".split(" ") == [""]`). -/
def splitSpaceChars : List Char → List (List Char)
  | [] => [[]]
  | c :: cs =>
    if c = ' ' then [] :: splitSpaceChars cs
    else
      match splitSpaceChars cs with
      | [] => [[c]]
      | w :: ws => (c :: w) :: ws

/-- Python `result_text.split(" ")`. -/
def pySplitSpace (s : String) : List String :=
  (splitSpaceChars s.data).map String.mk

/-- Synchronous part of `submit_generation` (and its registration effect on
`_generations`): a fresh `StreamingBuffer()` is stored under `message_id`
unconditionally, with no duplicate guard. -/
def submit_generation_register (gens : Dict StreamingBuffer)
    (message_id : String) : Dict StreamingBuffer :=
  Dict.set gens message_id StreamingBuffer.new

/-- Body of `submit_generation`'s `_run` closure, acting on the buffer
created at submission.  `generate_fn` is the callable's outcome.  On a
normal return: without `simulate_stream` the whole text is appended and the
buffer marked done; with `simulate_stream` the text is split on spaces and
each word is appended followed by a space (with a sleep between words, not
modelled), then the buffer is marked done.  A raised exception is caught
and recorded with `mark_error`. -/
def submit_generation_run (simulate_stream : Bool)
    (generate_fn : Except String String) (buffer : StreamingBuffer) :
    StreamingBuffer :=
  match generate_fn with
  | Except.error gen_err => buffer.mark_error gen_err
  | Except.ok result_text =>
    if !simulate_stream then
      (buffer.append result_text).mark_done
    else
      (((pySplitSpace result_text).foldl
        (fun b word => b.append (word ++ " ")) buffer)).mark_done

/-- Synchronous part of `submit_streaming_generation`: identical
unconditional registration of a fresh buffer. -/
def submit_streaming_generation_register (gens : Dict StreamingBuffer)
    (message_id : String) : Dict StreamingBuffer :=
  Dict.set gens message_id StreamingBuffer.new

/-- Body of `submit_streaming_generation`'s `_run` closure.  The typing
stage is set to `thinking`; `stream` holds the chunks the generator yields
before it terminates, and `stream_err` is `some msg` when the generator (or
its construction) raises after those chunks.  Non-empty chunks are
appended in arrival order; on normal exhaustion the buffer is marked done,
and a raised exception skips `mark_done` and is recorded with
`mark_error`. -/
def submit_streaming_generation_run (stream : List String)
    (stream_err : Option String) (buffer : StreamingBuffer) :
    StreamingBuffer :=
  let buffer := buffer.set_typing_stage TypingStage.thinking
  let buffer := stream.foldl
    (fun b chunk => if chunk = "" then b else b.append chunk) buffer
  match stream_err with
  | none => buffer.mark_done
  | some gen_err => buffer.mark_error gen_err

/-- Function `get_generation_buffer`: `_generations.get(message_id)`.  The
second component is the registry state after the call (state-passing style,
so that the absence of mutation is part of the statement). -/
def get_generation_buffer (gens : Dict StreamingBuffer) (message_id : String) :
    Option StreamingBuffer × Dict StreamingBuffer :=
  (gens message_id, gens)

/-- Synchronous part of `submit_save`: under the registry lock, if the key
already has an entry that is ok or still has no error (pending), the
duplicate submission is ignored (logging only) and no job is queued;
otherwise a fresh pending `SaveStatus` is registered and the job is queued.
The boolean records whether `_executor.submit(_run)` was reached, i.e.
whether `save_fn` will ever execute for this submission. -/
def submit_save (saves : Dict SaveStatus) (message_id : String) :
    Dict SaveStatus × Bool :=
  match saves message_id with
  | some existing =>
    if existing.ok || existing.error.isNone then (saves, false)
    else (Dict.set saves message_id ⟨message_id, false, none⟩, true)
  | none => (Dict.set saves message_id ⟨message_id, false, none⟩, true)

/-- Body of `submit_save`'s `_run` closure: `save_fn()` either returns
(status becomes ok) or raises (its message becomes the status error), and
the `finally` block re-records the status under the key. -/
def submit_save_run (saves : Dict SaveStatus) (message_id : String)
    (outcome : Except String Unit) : Dict SaveStatus :=
  match outcome with
  | Except.ok _ => Dict.set saves message_id ⟨message_id, true, none⟩
  | Except.error save_err =>
    Dict.set saves message_id ⟨message_id, false, some save_err⟩

/-- Function `pop_save_status`: return a terminal save status (ok, or error
set).  A pending status (ok false and no error) is not popped; a terminal
one is removed and returned. -/
def pop_save_status (saves : Dict SaveStatus) (message_id : String) :
    Option SaveStatus × Dict SaveStatus :=
  match saves message_id with
  | none => (none, saves)
  | some status =>
    if status.ok || status.error.isSome then
      (some status, Dict.remove saves message_id)
    else
      (none, saves)

/-- Function `clear_finished_generation`: remove the key's buffer, but only
when a buffer is present and already done. -/
def clear_finished_generation (gens : Dict StreamingBuffer)
    (message_id : String) : Dict StreamingBuffer :=
  match gens message_id with
  | some buf => if buf.is_done then Dict.remove gens message_id else gens
  | none => gens

/-- Body of `submit_history_load`'s `_run` closure: `load_fn()` either
returns a list of rows or raises, in which case an empty list is stored
instead (the failure is swallowed); the `finally` block records the result
under the key, overwriting any prior unread result. -/
def submit_history_load_run (history : Dict (List HistItem)) (key : String)
    (load_fn : Except String (List HistItem)) : Dict (List HistItem) :=
  let result := match load_fn with
    | Except.ok r => r
    | Except.error _ => []
  Dict.set history key result

/-- Function `pop_history_result`: `_history_results.pop(key, None)`,
returning the removed value (or nothing) and the new registry state. -/
def pop_history_result (history : Dict (List HistItem)) (key : String) :
    Option (List HistItem) × Dict (List HistItem) :=
  match history key with
  | none => (none, history)
  | some result => (some result, Dict.remove history key)

/-- A mutating call on a `StreamingBuffer` (the read methods do not change
the state); used to quantify over arbitrary operation sequences. -/
inductive BufferOp where
  | append (s : String)
  | mark_done
  | mark_error (m : String)
  | set_typing_stage (stage : TypingStage)
  deriving DecidableEq, Repr

/-- Apply one buffer operation. -/
def applyOp (b : StreamingBuffer) : BufferOp → StreamingBuffer
  | BufferOp.append s => b.append s
  | BufferOp.mark_done => b.mark_done
  | BufferOp.mark_error m => b.mark_error m
  | BufferOp.set_typing_stage stage => b.set_typing_stage stage

/-- Apply a sequence of buffer operations in order. -/
def applyOps (b : StreamingBuffer) (ops : List BufferOp) : StreamingBuffer :=
  ops.foldl applyOp b

/-! Helper lemmas about `String.join`, the split model and buffer folds. -/

theorem strJoin_foldl_data (l : List String) (a : String) :
    (l.foldl (fun r s => r ++ s) a).data = a.data ++ (l.map String.data).flatten := by
  induction l generalizing a with
  | nil => simp
  | cons s l ih => simp [List.foldl_cons, ih, String.data_append, List.append_assoc]

theorem data_join (l : List String) :
    (String.join l).data = (l.map String.data).flatten := by
  simp [String.join, strJoin_foldl_data]

theorem join_cons (s : String) (l : List String) :
    String.join (s :: l) = s ++ String.join l := by
  apply String.ext
  simp [data_join, String.data_append]

theorem join_append_singleton (l : List String) (s : String) :
    String.join (l ++ [s]) = String.join l ++ s := by
  simp [String.join, List.foldl_append]

theorem append_empty_str (s : String) : s ++ "" = s := by
  apply String.ext
  simp [String.data_append]

theorem read_all_new : StreamingBuffer.new.read_all = "" := rfl

theorem read_all_append (b : StreamingBuffer) (s : String) :
    (b.append s).read_all = b.read_all ++ s := by
  unfold StreamingBuffer.append StreamingBuffer.read_all
  split
  · simp [*, append_empty_str]
  · simp [join_append_singleton]

theorem done_append (b : StreamingBuffer) (s : String) :
    (b.append s).done = b.done := by
  unfold StreamingBuffer.append
  split <;> rfl

theorem error_append (b : StreamingBuffer) (s : String) :
    (b.append s).error = b.error := by
  unfold StreamingBuffer.append
  split <;> rfl

theorem read_all_foldl (g : String → String)
    (step : StreamingBuffer → String → StreamingBuffer)
    (hstep : ∀ b x, (step b x).read_all = b.read_all ++ g x) :
    ∀ (xs : List String) (b : StreamingBuffer),
      (xs.foldl step b).read_all = b.read_all ++ String.join (xs.map g) := by
  intro xs
  induction xs with
  | nil => intro b; simp [String.join]
  | cons x xs ih =>
    intro b
    simp only [List.foldl_cons, List.map_cons, join_cons, ih, hstep]
    apply String.ext
    simp [String.data_append]

theorem done_foldl (step : StreamingBuffer → String → StreamingBuffer)
    (hstep : ∀ b x, (step b x).done = b.done) :
    ∀ (xs : List String) (b : StreamingBuffer),
      (xs.foldl step b).done = b.done := by
  intro xs
  induction xs with
  | nil => intro b; rfl
  | cons x xs ih => intro b; simp [List.foldl_cons, ih, hstep]

theorem error_foldl (step : StreamingBuffer → String → StreamingBuffer)
    (hstep : ∀ b x, (step b x).error = b.error) :
    ∀ (xs : List String) (b : StreamingBuffer),
      (xs.foldl step b).error = b.error := by
  intro xs
  induction xs with
  | nil => intro b; rfl
  | cons x xs ih => intro b; simp [List.foldl_cons, ih, hstep]

theorem splitSpaceChars_ne_nil (cs : List Char) : splitSpaceChars cs ≠ [] := by
  cases cs with
  | nil => simp [splitSpaceChars]
  | cons c cs =>
    simp only [splitSpaceChars]
    split
    · simp
    · split <;> simp

theorem join_splitSpaceChars (cs : List Char) :
    ((splitSpaceChars cs).map (fun w => w ++ [' '])).flatten = cs ++ [' '] := by
  induction cs with
  | nil => rfl
  | cons c cs ih =>
    by_cases hc : c = ' '
    · simp [splitSpaceChars, hc, ih]
    · rcases hS : splitSpaceChars cs with _ | ⟨w, ws⟩
      · exact absurd hS (splitSpaceChars_ne_nil cs)
      · have hunfold : splitSpaceChars (c :: cs) = (c :: w) :: ws := by
          unfold splitSpaceChars
          rw [if_neg hc, hS]
        have ih' := ih
        rw [hS] at ih'
        rw [hunfold]
        simp only [List.map_cons, List.flatten_cons, List.cons_append,
          List.append_assoc, List.nil_append, List.singleton_append] at ih' ⊢
        rw [ih']

theorem map_data_words (L : List (List Char)) :
    ((L.map String.mk).map (fun w => w ++ " ")).map String.data =
      L.map (fun w => w ++ [' ']) := by
  induction L with
  | nil => rfl
  | cons w L ih =>
    simp only [List.map_cons, ih, String.data_append]

theorem empty_append_str (s : String) : "" ++ s = s := by
  apply String.ext
  simp [String.data_append]

theorem read_all_mark_done (b : StreamingBuffer) :
    b.mark_done.read_all = b.read_all := rfl

theorem read_all_mark_error (b : StreamingBuffer) (m : String) :
    (b.mark_error m).read_all = b.read_all := rfl

theorem done_mark_done (b : StreamingBuffer) : b.mark_done.done = true := rfl

theorem done_mark_error (b : StreamingBuffer) (m : String) :
    (b.mark_error m).done = true := rfl

theorem error_mark_done (b : StreamingBuffer) :
    b.mark_done.error = b.error := rfl

theorem error_mark_error (b : StreamingBuffer) (m : String) :
    (b.mark_error m).error = some m := rfl

theorem is_done_eq (b : StreamingBuffer) : b.is_done = b.done := rfl

theorem read_since_eq (b : StreamingBuffer) (c : Nat) :
    b.read_since c = b.read_all.drop c := rfl

theorem read_all_guarded_append (b : StreamingBuffer) (c : String) :
    (if c = "" then b else b.append c).read_all = b.read_all ++ c := by
  split
  · next h => rw [h, append_empty_str]
  · exact read_all_append b c

theorem done_guarded_append (b : StreamingBuffer) (c : String) :
    (if c = "" then b else b.append c).done = b.done := by
  split
  · rfl
  · exact done_append b c

theorem error_guarded_append (b : StreamingBuffer) (c : String) :
    (if c = "" then b else b.append c).error = b.error := by
  split
  · rfl
  · exact error_append b c

theorem join_words (t : String) :
    String.join ((pySplitSpace t).map (fun w => w ++ " ")) = t ++ " " := by
  apply String.ext
  rw [data_join]
  unfold pySplitSpace
  rw [map_data_words, join_splitSpaceChars, String.data_append]

/-! Claim theorems. -/

/-- C1: `pop_save_status` pops only terminal entries.  A key with no entry
yields absent; an entry that is still pending (ok false, error unset)
yields absent and stays in the registry; a terminal entry (ok, or error
set) is returned and removed, so an immediately subsequent pop of the same
key yields absent. -/
theorem pop_save_status_pops_only_terminal (saves : Dict SaveStatus)
    (k : String) :
    (saves k = none → pop_save_status saves k = (none, saves)) ∧
    (∀ st, saves k = some st → st.ok = false → st.error = none →
      pop_save_status saves k = (none, saves)) ∧
    (∀ st, saves k = some st → (st.ok = true ∨ st.error ≠ none) →
      (pop_save_status saves k).1 = some st ∧
      ((pop_save_status saves k).2) k = none ∧
      (pop_save_status ((pop_save_status saves k).2) k).1 = none) := by
  refine ⟨?_, ?_, ?_⟩
  · intro h
    simp [pop_save_status, h]
  · intro st h hok herr
    simp [pop_save_status, h, hok, herr]
  · intro st h hterm
    have hb : (st.ok || st.error.isSome) = true := by
      rcases hterm with h1 | h2
      · simp [h1]
      · simp [Option.isSome_iff_ne_none, h2]
    have hpop : pop_save_status saves k = (some st, Dict.remove saves k) := by
      simp [pop_save_status, h, hb]
    refine ⟨by rw [hpop], ?_, ?_⟩
    · rw [hpop]
      simp [Dict.remove]
    · rw [hpop]
      simp [pop_save_status, Dict.remove]

/-- C1 witness: a succeeded entry is popped, a pending entry and a missing
entry are not. -/
theorem pop_save_status_pops_only_terminal_witness :
    (pop_save_status (Dict.set Dict.empty "m" ⟨"m", true, none⟩) "m").1 =
      some ⟨"m", true, none⟩ ∧
    pop_save_status (Dict.set Dict.empty "m" ⟨"m", false, none⟩) "m" =
      (none, Dict.set Dict.empty "m" ⟨"m", false, none⟩) ∧
    pop_save_status (Dict.empty : Dict SaveStatus) "m" =
      (none, Dict.empty) := by
  refine ⟨?_, ?_, ?_⟩
  · exact ((pop_save_status_pops_only_terminal _ "m").2.2 ⟨"m", true, none⟩
      (by decide) (Or.inl (by decide))).1
  · exact (pop_save_status_pops_only_terminal _ "m").2.1 ⟨"m", false, none⟩
      (by decide) (by decide) (by decide)
  · exact (pop_save_status_pops_only_terminal _ "m").1 rfl

/-- C2: duplicate-save guard.  While the key's prior entry is pending, or
after it resolved ok, a second `submit_save` for that key is a no-op: the
registry is unchanged and the save callable is never queued (the boolean is
false, so it runs zero further times).  When the prior entry failed (error
set, ok false) a new submission is accepted: a fresh pending entry is
registered and the callable is queued. -/
theorem submit_save_duplicate_guard (saves : Dict SaveStatus) (k : String) :
    (∀ st, saves k = some st → st.ok = false → st.error = none →
      submit_save saves k = (saves, false)) ∧
    (∀ st, saves k = some st → st.ok = true →
      submit_save saves k = (saves, false)) ∧
    (∀ st e, saves k = some st → st.ok = false → st.error = some e →
      submit_save saves k = (Dict.set saves k ⟨k, false, none⟩, true)) := by
  refine ⟨?_, ?_, ?_⟩
  · intro st h hok herr
    simp [submit_save, h, hok, herr]
  · intro st h hok
    simp [submit_save, h, hok]
  · intro st e h hok herr
    simp [submit_save, h, hok, herr]

/-- C2 witness: a pending and a succeeded prior entry block resubmission; a
failed prior entry is resubmittable. -/
theorem submit_save_duplicate_guard_witness :
    submit_save (Dict.set Dict.empty "m" ⟨"m", false, none⟩) "m" =
      (Dict.set Dict.empty "m" ⟨"m", false, none⟩, false) ∧
    submit_save (Dict.set Dict.empty "m" ⟨"m", true, none⟩) "m" =
      (Dict.set Dict.empty "m" ⟨"m", true, none⟩, false) ∧
    submit_save (Dict.set Dict.empty "m" ⟨"m", false, some "db down"⟩) "m" =
      (Dict.set (Dict.set Dict.empty "m" ⟨"m", false, some "db down"⟩) "m"
        ⟨"m", false, none⟩, true) := by
  refine ⟨?_, ?_, ?_⟩
  · exact (submit_save_duplicate_guard _ "m").1 ⟨"m", false, none⟩
      (by decide) (by decide) (by decide)
  · exact (submit_save_duplicate_guard _ "m").2.1 ⟨"m", true, none⟩
      (by decide) (by decide)
  · exact (submit_save_duplicate_guard _ "m").2.2 ⟨"m", false, some "db down"⟩
      "db down" (by decide) (by decide) (by decide)

/-- C3 counterexample: with `simulate_stream` the buffer's final content is
not the callable's text — for the callable returning "hello" the job
appends the single word with a trailing space, ending with "hello ". -/
theorem submit_generation_simulate_stream_not_identity :
    (submit_generation_run true (Except.ok "hello")
      StreamingBuffer.new).read_all ≠ "hello" := by decide

/-- C3 (amended): for every callable returning text `t`, if
`simulate_stream` is false the buffer's final `read_all` equals exactly
`t` (appended in one shot, then marked done); if `simulate_stream` is true
the content is `t` split on spaces with each word appended followed by a
space, so the final content is `t` plus one trailing space — the two modes
differ by exactly that trailing space, and both end done without error. -/
theorem submit_generation_final_content (t : String) :
    ((submit_generation_run false (Except.ok t) StreamingBuffer.new).read_all
        = t ∧
      (submit_generation_run false (Except.ok t) StreamingBuffer.new).is_done
        = true ∧
      (submit_generation_run false (Except.ok t) StreamingBuffer.new).error
        = none) ∧
    ((submit_generation_run true (Except.ok t) StreamingBuffer.new).read_all
        = t ++ " " ∧
      (submit_generation_run true (Except.ok t) StreamingBuffer.new).is_done
        = true ∧
      (submit_generation_run true (Except.ok t) StreamingBuffer.new).error
        = none) := by
  have hfalse : submit_generation_run false (Except.ok t) StreamingBuffer.new
      = (StreamingBuffer.new.append t).mark_done := rfl
  have htrue : submit_generation_run true (Except.ok t) StreamingBuffer.new
      = ((pySplitSpace t).foldl (fun b word => b.append (word ++ " "))
          StreamingBuffer.new).mark_done := rfl
  refine ⟨⟨?_, ?_, ?_⟩, ⟨?_, ?_, ?_⟩⟩
  · rw [hfalse, read_all_mark_done, read_all_append, read_all_new,
      empty_append_str]
  · rw [hfalse, is_done_eq, done_mark_done]
  · rw [hfalse, error_mark_done, error_append]
    rfl
  · rw [htrue, read_all_mark_done,
      read_all_foldl (fun w => w ++ " ") _
        (fun b x => read_all_append b (x ++ " ")),
      read_all_new, empty_append_str, join_words]
  · rw [htrue, is_done_eq, done_mark_done]
  · rw [htrue, error_mark_done,
      error_foldl _ (fun b x => error_append b (x ++ " "))]
    rfl

/-- C4: fire-and-forget error capture for generation.  For both submission
modes, a callable (or generator) that raises an exception with message
`msg` leaves the buffer done with `error = msg`; the submitting side never
sees the exception (the job body is a total state transformation of the
buffer, with the exception caught on the job thread). -/
theorem generation_error_capture (msg : String) (simulate_stream : Bool)
    (chunks : List String) :
    ((submit_generation_run simulate_stream (Except.error msg)
        StreamingBuffer.new).is_done = true ∧
      (submit_generation_run simulate_stream (Except.error msg)
        StreamingBuffer.new).error = some msg) ∧
    ((submit_streaming_generation_run chunks (some msg)
        StreamingBuffer.new).is_done = true ∧
      (submit_streaming_generation_run chunks (some msg)
        StreamingBuffer.new).error = some msg) := by
  exact ⟨⟨rfl, rfl⟩, ⟨rfl, rfl⟩⟩

/-- C5: streaming generation preserves chunk order and content.  For a
source that yields `chunks` and terminates normally, the final buffer's
`read_all` is the concatenation of the chunks in arrival order, the buffer
is done, and no error is set. -/
theorem streaming_generation_preserves_chunks (chunks : List String) :
    (submit_streaming_generation_run chunks none
        StreamingBuffer.new).read_all = String.join chunks ∧
    (submit_streaming_generation_run chunks none
        StreamingBuffer.new).is_done = true ∧
    (submit_streaming_generation_run chunks none
        StreamingBuffer.new).error = none := by
  have h : submit_streaming_generation_run chunks none StreamingBuffer.new
      = (chunks.foldl (fun b chunk => if chunk = "" then b else b.append chunk)
          (StreamingBuffer.new.set_typing_stage TypingStage.thinking)).mark_done
      := rfl
  refine ⟨?_, ?_, ?_⟩
  · rw [h, read_all_mark_done,
      read_all_foldl (fun c => c) _ read_all_guarded_append]
    show "" ++ String.join (chunks.map fun c => c) = String.join chunks
    rw [empty_append_str, List.map_id']
  · rw [h, is_done_eq, done_mark_done]
  · rw [h, error_mark_done, error_foldl _ error_guarded_append]
    rfl

/-- C6: `StreamingBuffer` read semantics.  Appending fragments in order
yields their concatenation in `read_all`; `read_since c` is the suffix of
that concatenation beyond character offset `c`; appending an empty
fragment is a no-op; and `read_all` after `mark_done` still returns the
same accumulated text (reads are pure, so repeated reads agree absent
further appends). -/
theorem streaming_buffer_read_semantics (frags : List String) (c : Nat)
    (b : StreamingBuffer) :
    (frags.foldl (fun bb f => bb.append f) StreamingBuffer.new).read_all
        = String.join frags ∧
    (frags.foldl (fun bb f => bb.append f) StreamingBuffer.new).read_since c
        = (String.join frags).drop c ∧
    b.append "" = b ∧
    b.mark_done.read_all = b.read_all := by
  have h1 : (frags.foldl (fun bb f => bb.append f)
      StreamingBuffer.new).read_all = String.join frags := by
    rw [read_all_foldl (fun f => f) _ (fun bb f => read_all_append bb f),
      read_all_new, empty_append_str, List.map_id']
  refine ⟨h1, ?_, ?_, rfl⟩
  · rw [read_since_eq, h1]
  · simp [StreamingBuffer.append]

theorem done_applyOps_mono :
    ∀ (ops : List BufferOp) (b : StreamingBuffer),
      b.done = true → (applyOps b ops).done = true := by
  intro ops
  induction ops with
  | nil => intro b h; exact h
  | cons op ops ih =>
    intro b h
    refine ih (applyOp b op) ?_
    cases op with
    | append s => rw [applyOp, done_append]; exact h
    | mark_done => rfl
    | mark_error m => rfl
    | set_typing_stage stage => exact h

theorem error_done_applyOps :
    ∀ (ops : List BufferOp) (b : StreamingBuffer),
      (b.error ≠ none → b.done = true) →
      ((applyOps b ops).error ≠ none → (applyOps b ops).done = true) := by
  intro ops
  induction ops with
  | nil => intro b h; exact h
  | cons op ops ih =>
    intro b h
    refine ih (applyOp b op) ?_
    cases op with
    | append s =>
      intro he
      rw [applyOp, error_append] at he
      rw [applyOp, done_append]
      exact h he
    | mark_done =>
      intro he
      rw [applyOp, error_mark_done] at he
      rfl
    | mark_error m => intro _; rfl
    | set_typing_stage stage => exact h

/-- C7: buffer done/error invariant.  After `mark_error m` the buffer is
done with `error = m` even though `mark_done` was never called; across
every sequence of mutating operations starting from a fresh buffer, a set
error implies done; and once done, no later operation (including further
`mark_done`/`mark_error` calls) ever makes done false again. -/
theorem buffer_done_error_invariant (m : String) (ops : List BufferOp)
    (b : StreamingBuffer) :
    ((StreamingBuffer.new.mark_error m).is_done = true ∧
      (StreamingBuffer.new.mark_error m).error = some m) ∧
    ((applyOps StreamingBuffer.new ops).error ≠ none →
      (applyOps StreamingBuffer.new ops).is_done = true) ∧
    (b.is_done = true → (applyOps b ops).is_done = true) := by
  refine ⟨⟨rfl, rfl⟩, ?_, ?_⟩
  · intro he
    rw [is_done_eq]
    exact error_done_applyOps ops StreamingBuffer.new
      (fun hne => absurd rfl hne) he
  · intro hd
    rw [is_done_eq]
    exact done_applyOps_mono ops b (by rw [is_done_eq] at hd; exact hd)

/-- C7 witness: a fresh buffer taken through `mark_error "x"` is done with
that error, and a buffer already done stays done through a later append. -/
theorem buffer_done_error_invariant_witness :
    (applyOps StreamingBuffer.new [BufferOp.mark_error "x"]).error ≠ none ∧
    (applyOps StreamingBuffer.new [BufferOp.mark_error "x"]).is_done
      = true ∧
    StreamingBuffer.new.mark_done.is_done = true ∧
    (applyOps StreamingBuffer.new.mark_done [BufferOp.append "hi"]).is_done
      = true := by
  have h := buffer_done_error_invariant "x" [BufferOp.mark_error "x"]
    StreamingBuffer.new.mark_done
  exact ⟨by decide, h.2.1 (by decide), by decide, h.2.2 (by decide)⟩

/-- C8: history-load swallow-and-pop-once.  After the load job records its
outcome for a key, `pop_history_result` returns the stored list (the
callable's rows on success, an empty list when the callable raised — the
failure is swallowed) and removes it, so a second immediate pop for the
same key returns absent, as does a pop for a key with nothing stored. -/
theorem history_load_swallow_and_pop_once (history : Dict (List HistItem))
    (key : String) (rows : List HistItem) (e : String) :
    (pop_history_result
      (submit_history_load_run history key (Except.ok rows)) key).1
        = some rows ∧
    (pop_history_result
      (pop_history_result
        (submit_history_load_run history key (Except.ok rows)) key).2
      key).1 = none ∧
    (pop_history_result
      (submit_history_load_run history key (Except.error e)) key).1
        = some [] ∧
    (history key = none → pop_history_result history key
        = (none, history)) := by
  refine ⟨?_, ?_, ?_, ?_⟩
  · simp [pop_history_result, submit_history_load_run, Dict.set]
  · simp [pop_history_result, submit_history_load_run, Dict.set, Dict.remove]
  · simp [pop_history_result, submit_history_load_run, Dict.set]
  · intro h
    simp [pop_history_result, h]

/-- C8 witness: a stored row list is popped exactly once and an absent key
pops to nothing. -/
theorem history_load_swallow_and_pop_once_witness :
    (pop_history_result
      (submit_history_load_run Dict.empty "s1" (Except.ok [[("id", 1)]]))
      "s1").1 = some [[("id", 1)]] ∧
    pop_history_result (Dict.empty : Dict (List HistItem)) "s1"
      = (none, Dict.empty) := by
  have h := history_load_swallow_and_pop_once Dict.empty "s1" [[("id", 1)]]
    "db err"
  exact ⟨h.1, h.2.2.2 rfl⟩

/-- C9: registry lookup/cleanup frame conditions.
`get_generation_buffer` leaves the registry unchanged and returns absent
for a key with no entry (never submitted or already cleaned up);
`clear_finished_generation` is a no-op when the key has no buffer or the
buffer is not yet done (the buffer stays retrievable), and removes the
buffer exactly when it is done (after which lookup returns absent). -/
theorem registry_lookup_cleanup_frame (gens : Dict StreamingBuffer)
    (k : String) :
    (get_generation_buffer gens k).2 = gens ∧
    (gens k = none → (get_generation_buffer gens k).1 = none) ∧
    (gens k = none → clear_finished_generation gens k = gens) ∧
    (∀ buf, gens k = some buf → buf.is_done = false →
      clear_finished_generation gens k = gens ∧
      (get_generation_buffer (clear_finished_generation gens k) k).1
        = some buf) ∧
    (∀ buf, gens k = some buf → buf.is_done = true →
      (get_generation_buffer (clear_finished_generation gens k) k).1
        = none) := by
  refine ⟨rfl, ?_, ?_, ?_, ?_⟩
  · intro h
    simpa [get_generation_buffer] using h
  · intro h
    simp [clear_finished_generation, h]
  · intro buf h hnd
    have hc : clear_finished_generation gens k = gens := by
      simp [clear_finished_generation, h, hnd]
    exact ⟨hc, by simp [get_generation_buffer, hc, h]⟩
  · intro buf h hd
    simp [get_generation_buffer, clear_finished_generation, h, hd,
      Dict.remove]

/-- C9 witness: lookup of an absent key, a no-op clear of a pending buffer,
and a successful clear of a done buffer. -/
theorem registry_lookup_cleanup_frame_witness :
    (get_generation_buffer (Dict.empty : Dict StreamingBuffer) "g").1
      = none ∧
    clear_finished_generation (Dict.set Dict.empty "g" StreamingBuffer.new)
      "g" = Dict.set Dict.empty "g" StreamingBuffer.new ∧
    (get_generation_buffer
      (clear_finished_generation
        (Dict.set Dict.empty "g" StreamingBuffer.new.mark_done) "g")
      "g").1 = none := by
  refine ⟨?_, ?_, ?_⟩
  · exact (registry_lookup_cleanup_frame Dict.empty "g").2.1 rfl
  · exact ((registry_lookup_cleanup_frame _ "g").2.2.2.1 StreamingBuffer.new
      (by decide) (by decide)).1
  · exact (registry_lookup_cleanup_frame _ "g").2.2.2.2
      StreamingBuffer.new.mark_done (by decide) (by decide)

/-- C10: no duplicate guard for generation submissions.  Whatever the key
currently maps to (nothing, or a pending, done, or failed buffer), both
`submit_generation` and `submit_streaming_generation` unconditionally
register a fresh buffer under the key, so the registry lookup thereafter
returns the fresh buffer — last submission wins, unlike the guarded save
path. -/
theorem generation_submission_last_wins (gens : Dict StreamingBuffer)
    (k : String) :
    (submit_generation_register gens k) k = some StreamingBuffer.new ∧
    (submit_streaming_generation_register gens k) k
      = some StreamingBuffer.new ∧
    (∀ old, gens k = some old →
      (submit_generation_register gens k) k = some StreamingBuffer.new ∧
      (submit_streaming_generation_register gens k) k
        = some StreamingBuffer.new) := by
  have h1 : (Dict.set gens k StreamingBuffer.new) k
      = some StreamingBuffer.new := by
    simp [Dict.set]
  exact ⟨h1, h1, fun old _ => ⟨h1, h1⟩⟩

/-- C10 witness: a key holding an old (already done) buffer is replaced by
a fresh pending buffer in both submission modes. -/
theorem generation_submission_last_wins_witness :
    (submit_generation_register
      (Dict.set Dict.empty "g" StreamingBuffer.new.mark_done) "g") "g"
        = some StreamingBuffer.new ∧
    (submit_streaming_generation_register
      (Dict.set Dict.empty "g" StreamingBuffer.new.mark_done) "g") "g"
        = some StreamingBuffer.new := by
  exact (generation_submission_last_wins _ "g").2.2
    StreamingBuffer.new.mark_done (by decide)

end TaskQueue
